import Mathlib

/-!
ImageEncoder: the video pipeline (`VideoBase.cpp`) and the command line
(`main.cpp`).

A shallow embedding of

* `dc::VideoBase::VideoBase`                      (VideoBase.cpp, lines 6-19),
* `dc::VideoProcessor::VideoProcessor` (encode)   (VideoBase.cpp, lines 28-43),
* `dc::VideoProcessor::VideoProcessor` (decode)   (VideoBase.cpp, lines 45-86),
* `dc::VideoProcessor::process`                   (VideoBase.cpp, lines 96-122),
* `main`                                          (main.cpp, lines 17-123).

Conventions.

* `uint16_t` and `size_t` values are natural numbers; a conversion to
  `uint16_t` is written `% 2 ^ 16`, `size_t` arithmetic is written `% 2 ^ 64`.
* Operations whose behaviour C++ leaves undefined (overflow of an `int`
  product, division or remainder by zero) and operations that throw or leave
  the process are results in `Except Error`.
* Collaborators whose code is not part of the two source files are either
  parameters (`Env`: `MatrixReader`, `Huffman`, `util::bits_needed`, the
  constants `RLE_BITS` and `DIM_BITS`) or definitions marked
  `Modelled from the spec` (`BitStreamReader`, `is_i_frame`).
* The constructor of `Frame` is taken to return; a run of `main` records
  whether the constructors of `Encoder` and `Decoder` return.
-/

namespace dc

/-- Ways in which a constructor or `process` can fail to return. -/
inductive Error where
  /-- The process was ended by `exit(code)`. -/
  | exit (code : Int)
  /-- An `int` product left the range of `int` (undefined behaviour). -/
  | signedOverflow
  /-- Integer division or remainder by zero (undefined behaviour). -/
  | divisionByZero
  /-- `BitStreamReader::get` was asked for more bits than remain. -/
  | outOfRange
  /-- A failure raised inside a collaborator that is not modelled here. -/
  | collaborator (tag : Nat)
deriving DecidableEq

/-- The number of values of a `size_t`. -/
def SIZE_MAX1 : Nat := 2 ^ 64

/-- The number of non-negative values of an `int`. -/
def INT_MAX1 : Nat := 2 ^ 31

/-- Bit reader: a byte buffer and a cursor counted in bits. -/
structure BitStreamReader where
  /-- The bytes the reader runs over. -/
  buffer : List Nat
  /-- The cursor, in bits from the start of the buffer. -/
  position : Nat
deriving DecidableEq

namespace BitStreamReader

/-- Modelled from the spec: `BitStreamReader(data, size)` (BitStream is not among
the source files) is a reader over the given bytes with its cursor at the
start. -/
def new (raw : List Nat) : BitStreamReader :=
  { buffer := raw, position := 0 }

/-- Modelled from the spec: `get_size()` (BitStream is not among the source
files) "returns total readable bits", eight for every byte of the buffer. -/
def get_size (r : BitStreamReader) : Nat :=
  8 * r.buffer.length

/-- Bit `i` of a byte buffer, most significant bit of each byte first. -/
def bitAt (buffer : List Nat) (i : Nat) : Nat :=
  (buffer.getD (i / 8) 0 / 2 ^ (7 - i % 8)) % 2

/-- The unsigned value of the `n`-bit field that starts at bit `pos`, most
significant bit first. -/
def fieldValue (buffer : List Nat) (pos : Nat) : Nat → Nat
  | 0 => 0
  | n + 1 => 2 * fieldValue buffer pos n + bitAt buffer (pos + n)

/-- Modelled from the spec: `get(n)` (BitStream is not among the source files)
"reads the next `n` bits (1-32) as an unsigned integer and advances the cursor
by `n`; fails with `OutOfRange` if fewer than `n` bits remain". -/
def get (r : BitStreamReader) (n : Nat) : Except Error (Nat × BitStreamReader) :=
  if r.position + n ≤ r.get_size then
    .ok (fieldValue r.buffer r.position n, { r with position := r.position + n })
  else
    .error .outOfRange

end BitStreamReader

/-- What the two constructors use and the source files do not contain. `Q` is
the type of quantization matrices (`MatrixReader<>`). -/
structure Env (Q : Type) where
  /-- The constant `dc::ImageProcessor::RLE_BITS`. -/
  RLE_BITS : Nat
  /-- The constant `dc::ImageProcessor::DIM_BITS`. -/
  DIM_BITS : Nat
  /-- The function `util::bits_needed`, applied to an `int16_t`. -/
  bits_needed : Int → Nat
  /-- The function `dc::MatrixReader<>::fromBitstream`: the matrix read and the
  reader as it is left behind. -/
  fromBitstream : BitStreamReader → Except Error (Q × BitStreamReader)
  /-- The function `algo::Huffman<>::decode`: the decompressed stream, or
  nothing when the stream was not compressed (`nullptr`), and the reader passed
  in as it is left behind. -/
  huffmanDecode : BitStreamReader → Except Error (Option BitStreamReader × BitStreamReader)

/-- The product of two `uint16_t` values: both are promoted to `int`, and the
product is undefined when it does not fit. -/
def mulInt (a b : Nat) : Except Error Nat :=
  if a * b < INT_MAX1 then .ok (a * b) else .error .signedOverflow

/-- The conversion `uint16_t(v)`. -/
def toUInt16 (v : Nat) : Nat := v % 2 ^ 16

/-- The conversion `int16_t(v)` of a `uint16_t`. -/
def toInt16 (v : Nat) : Int :=
  if v % 2 ^ 16 < 2 ^ 15 then ((v % 2 ^ 16 : Nat) : Int) else ((v % 2 ^ 16 : Nat) : Int) - 2 ^ 16

/-- The members of `dc::VideoBase` the pipeline works with. -/
structure VideoBase where
  /-- Frame width, `uint16_t`. -/
  width : Nat
  /-- Frame height, `uint16_t`. -/
  height : Nat
  /-- Total values inside one frame (Y), a `size_t`. -/
  frame_buffer_size : Nat
  /-- Total values after the frame data (UV), a `size_t`. -/
  frame_garbage_size : Nat
  /-- The bytes of the source file. -/
  raw : List Nat
  /-- The reader over `raw`. -/
  reader : BitStreamReader
deriving DecidableEq

/-- The constructor `dc::VideoBase::VideoBase(source_file, width, height)`.
`file` is the content of `source_file`, or `none` when reading it throws
`FileReadException`, which the constructor answers with `exit(-1)`. The member
initialisers (the two products) run before the body. -/
def VideoBase.new (file : Option (List Nat)) (width height : Nat) : Except Error VideoBase := do
  let frame_buffer_size ← mulInt width height
  let garbage ← mulInt width height
  let frame_garbage_size := garbage / 2
  match file with
  | none => throw (.exit (-1))
  | some raw =>
    pure { width := width, height := height
           frame_buffer_size := frame_buffer_size
           frame_garbage_size := frame_garbage_size
           raw := raw
           reader := BitStreamReader.new raw }

/-- One `dc::Frame` as `process` creates it: the arguments handed to the
constructor of `Frame`. A pointer into the source buffer is its address, a
pointer to a frame is the position of that frame in the frame list. -/
structure Frame (Q : Type) where
  /-- Address of the first byte of the frame. -/
  frame_starts : Nat
  /-- The reference frame, or `none` for `nullptr`. -/
  reference_frame : Option Nat
  /-- Frame width. -/
  width : Nat
  /-- Frame height. -/
  height : Nat
  /-- Run-length flag. -/
  use_rle : Bool
  /-- Quantization matrix. -/
  quant_m : Q
  /-- Whether the frame is an I-frame. -/
  is_i_frame : Bool
deriving DecidableEq

/-- The members of `dc::VideoProcessor`, and the static `dc::Frame::MVEC_BIT_SIZE`
both constructors assign. -/
structure VideoProcessor (Q : Type) extends VideoBase where
  /-- Run-length flag, a `bool` (the encoding constructor initialises it from
  its `const bool &` parameter). -/
  use_rle : Bool
  /-- Quantization matrix. -/
  quant_m : Q
  /-- GOP size, `uint16_t`. -/
  gop : Nat
  /-- Motion range, `uint16_t`. -/
  merange : Nat
  /-- Whether motion compensation is applied. -/
  motioncomp : Bool
  /-- Name of the destination file. -/
  dest_file : String
  /-- The frame list. -/
  frames : List (Frame Q)
  /-- Total amount of frames, a `size_t` (it receives a `size_t` quotient and
  bounds the `size_t` counter of the loop of `process`). -/
  frame_count : Nat
  /-- The static `dc::Frame::MVEC_BIT_SIZE`. -/
  MVEC_BIT_SIZE : Nat
deriving DecidableEq

/-- The reader the decoding constructor goes on with after the Huffman step,
`if (hm_output != nullptr) reader = hm_output`: the decompressed stream when
there is one, else the reader the Huffman step was given. -/
def afterHuffman (hm_output : Option BitStreamReader) (reader : BitStreamReader) :
    BitStreamReader :=
  match hm_output with
  | some out => out
  | none => reader

namespace VideoProcessor

variable {Q : Type}

/-- The encoding constructor
`VideoProcessor(source_file, dest_file, width, height, use_rle, quant_m, gop, merange)`. -/
def encode (env : Env Q) (file : Option (List Nat)) (dest_file : String)
    (width height : Nat) (use_rle : Bool) (quant_m : Q) (gop merange : Nat) :
    Except Error (VideoProcessor Q) := do
  let base ← VideoBase.new file width height
  let gop := max 1 gop
  let divisor := (base.frame_buffer_size + base.frame_garbage_size) % SIZE_MAX1
  if divisor = 0 then
    throw .divisionByZero
  else
    pure { toVideoBase := base
           use_rle := use_rle, quant_m := quant_m
           gop := gop, merange := merange, motioncomp := true
           dest_file := dest_file
           frames := []
           frame_count := base.reader.get_size / divisor
           MVEC_BIT_SIZE := env.bits_needed (toInt16 merange) }

/-- The decoding constructor `VideoProcessor(source_file, dest_file, motioncomp)`. -/
def decode (env : Env Q) (file : Option (List Nat)) (dest_file : String)
    (motioncomp : Bool) : Except Error (VideoProcessor Q) := do
  let base ← VideoBase.new file 0 0
  let (hm_output, reader) ← env.huffmanDecode base.reader
  let reader := afterHuffman hm_output reader
  let (quant_m, reader) ← env.fromBitstream reader
  let (rle, reader) ← reader.get env.RLE_BITS
  let use_rle := decide (rle ≠ 0)
  let (w, reader) ← reader.get env.DIM_BITS
  let width := toUInt16 w
  let (h, reader) ← reader.get env.DIM_BITS
  let height := toUInt16 h
  let (fc, reader) ← reader.get env.DIM_BITS
  let frame_count := fc % SIZE_MAX1
  let frame_buffer_size ← mulInt width height
  let frame_garbage_size := frame_buffer_size / 2
  let (g, reader) ← reader.get env.DIM_BITS
  let gop := toUInt16 g
  let (m, reader) ← reader.get env.DIM_BITS
  let merange := toUInt16 m
  pure { width := width, height := height
         frame_buffer_size := frame_buffer_size
         frame_garbage_size := frame_garbage_size
         raw := base.raw
         reader := reader
         use_rle := use_rle, quant_m := quant_m
         gop := gop, merange := merange, motioncomp := motioncomp
         dest_file := dest_file
         frames := []
         frame_count := frame_count
         MVEC_BIT_SIZE := env.bits_needed (toInt16 merange) }

/-- Modelled from the spec: `is_i_frame(f_x)` (declared in VideoBase.hpp, which
is not among the source files) follows the placement rule "frame `f` is an
I-frame iff `f mod gop == 0`". The remainder by a `gop` of zero is undefined
in C++. -/
def is_i_frame (vp : VideoProcessor Q) (f_x : Nat) : Except Error Bool :=
  if vp.gop = 0 then .error .divisionByZero else .ok (f_x % vp.gop == 0)

/-- The loop of `process`, `for (size_t f_x = 0; f_x < frame_count; f_x++)`:
`remaining` is `frame_count - f_x`, the number of iterations still to run, and
`frames` is the frame list so far. The frame created in an iteration is pushed
at the end of the list, so the pointer to it is the length of the list before
the push. -/
def processLoop (vp : VideoProcessor Q) (source_frame_buffer total_frame_size : Nat) :
    Nat → Nat → Option Nat → List (Frame Q) → Except Error (List (Frame Q))
  | 0, _, _, frames => .ok frames
  | remaining + 1, f_x, reference_frame, frames => do
    let frame_starts := source_frame_buffer + (f_x * total_frame_size) % SIZE_MAX1
    let i_frame ← is_i_frame vp f_x
    let current_frame : Frame Q :=
      { frame_starts := frame_starts, reference_frame := reference_frame
        width := vp.width, height := vp.height
        use_rle := vp.use_rle, quant_m := vp.quant_m
        is_i_frame := i_frame }
    processLoop vp source_frame_buffer total_frame_size remaining (f_x + 1)
      (some frames.length) (frames ++ [current_frame])

/-- The method `VideoProcessor::process(source_frame_buffer)`: the value
returned and the object as it is left behind. `source_frame_buffer` is the
address of the first byte of the buffer. -/
def process (vp : VideoProcessor Q) (source_frame_buffer : Nat) :
    Except Error (Bool × VideoProcessor Q) := do
  let total_frame_size := (vp.frame_buffer_size + vp.frame_garbage_size) % SIZE_MAX1
  let frames ← processLoop vp source_frame_buffer total_frame_size vp.frame_count 0 none vp.frames
  pure (true, { vp with frames := frames })

/-- The frame the loop of `process` creates `i` iterations after the one with
index `f_x`, when that iteration starts with the reference `reference_frame`
and a frame list of length `k`. -/
def loopFrame (vp : VideoProcessor Q) (source_frame_buffer total_frame_size : Nat)
    (f_x : Nat) (reference_frame : Option Nat) (k : Nat) (i : Nat) : Frame Q :=
  { frame_starts := source_frame_buffer + ((f_x + i) * total_frame_size) % SIZE_MAX1
    reference_frame := if i = 0 then reference_frame else some (k + i - 1)
    width := vp.width, height := vp.height
    use_rle := vp.use_rle, quant_m := vp.quant_m
    is_i_frame := (f_x + i) % vp.gop == 0 }

end VideoProcessor

/-! Sample collaborators and inputs: concrete values at which the results
below are instantiated. -/

/-- Sample collaborators: a flag of one bit and dimensions of fifteen bits, a
quantization matrix of a single cell of eight bits, and a Huffman step that
reads the leading flag and knows only streams that are not compressed. -/
def sampleEnv : Env (List Nat) :=
  { RLE_BITS := 1, DIM_BITS := 15
    bits_needed := fun v => Nat.log2 v.natAbs + 1
    fromBitstream := fun r =>
      match r.get 8 with
      | .ok (cell, r) => .ok ([cell], r)
      | .error e => .error e
    huffmanDecode := fun r =>
      match r.get 1 with
      | .ok (flag, r) => if flag = 0 then .ok (none, r) else .error (.collaborator 0)
      | .error e => .error e }

/-- A coded file for `sampleEnv`: Huffman flag 0, matrix cell 1, `use_rle` 1,
width 2, height 2, `frame_count` 3, `gop` 2, `merange` 1, padded with zero bits
to eleven bytes. -/
def sampleStream : List Nat := [0, 192, 1, 0, 2, 0, 6, 0, 8, 0, 8]

/-- The coded file `sampleStream` with the field `gop` set to 0. -/
def zeroGopStream : List Nat := [0, 192, 1, 0, 2, 0, 6, 0, 0, 0, 8]

/-- A raw file of three bytes. -/
def threeBytes : List Nat := [16, 128, 128]

/-- A raw file of twelve bytes: two frames of width 2 and height 2, four
samples and two trailing bytes each. -/
def twoFrames : List Nat := [16, 32, 48, 64, 128, 128, 80, 96, 112, 128, 128, 128]

end dc

namespace cli

/-- The compile-time switches of `main.cpp`. -/
structure Build where
  /-- Whether `ENCODER` is defined. -/
  ENCODER : Bool
  /-- Whether `DECODER` is defined. -/
  DECODER : Bool
deriving DecidableEq

/-- What one run of `main` meets outside `main.cpp`: the arguments, the
settings file and the results of the calls into the other classes. -/
structure Run where
  /-- The argument count. -/
  argc : Int
  /-- The result of `c.read(argv[1])`. -/
  read_ok : Bool
  /-- The result of `c.verify()`. -/
  verify_ok : Bool
  /-- The setting `rawfile`. -/
  rawfile : String
  /-- The setting `encfile`. -/
  encfile : String
  /-- The setting `decfile`. -/
  decfile : String
  /-- The result of `m.read(quantfile)`. -/
  matrix_ok : Bool
  /-- The setting `width` after `lexical_cast<uint16_t>`, `none` when the cast throws. -/
  width : Option Nat
  /-- The setting `height` after `lexical_cast<uint16_t>`, `none` when the cast throws. -/
  height : Option Nat
  /-- The setting `rle` after `lexical_cast<uint16_t>`, `none` when the cast throws. -/
  rle : Option Nat
  /-- The construction of `enc` (main.cpp, line 83): `none` when the constructor
  returns, `some code` when it ends the process with that status, as the
  constructor of `VideoBase` does with `exit(-1)` when the source file cannot
  be read (VideoBase.cpp, line 15). -/
  enc_exit : Option Int
  /-- The result of `enc.process()`. -/
  enc_process : Bool
  /-- The construction of `dec` (main.cpp, line 106): `none` when the constructor
  returns, `some code` when it ends the process with that status. -/
  dec_exit : Option Int
  /-- The result of `dec.process()`. -/
  dec_process : Bool
deriving DecidableEq

/-- What a run does to the output files and the log once the settings are read. -/
inductive Event where
  /-- The call `enc.saveResult()`. -/
  | encoderSaved
  /-- The line "Error processing raw image for encoding!" was logged. -/
  | encoderFailureLogged
  /-- The call `dec.saveResult()`. -/
  | decoderSaved
  /-- The line "Error processing raw image for decoding!" was logged. -/
  | decoderFailureLogged
deriving DecidableEq

/-- The exit status of a run and what it did on the way. -/
structure Outcome where
  /-- The value `main` returns. -/
  status : Int
  /-- The events of the run, in order. -/
  events : List Event
deriving DecidableEq

/-- The block of `main` under `#ifdef ENCODER` (main.cpp, lines 54-96): the
status with which the run ends inside the block, by a `return` of `main` or
inside the constructor of `enc`, otherwise the value of `success` and the
events of the block. -/
def encoderBlock (r : Run) : Except Int (Bool × List Event) :=
  if r.rawfile = r.encfile then .error 3
  else if !r.matrix_ok then .error 4
  else
    match r.width, r.height, r.rle with
    | some _, some _, some _ =>
      match r.enc_exit with
      | some code => .error code
      | none =>
        if r.enc_process then .ok (true, [.encoderSaved])
        else .ok (false, [.encoderFailureLogged])
    | _, _, _ => .error 5

/-- The block of `main` under `#ifdef DECODER` (main.cpp, lines 98-119), entered
with the value of `success` and the events so far: the outcome with which the
run ends inside the block, otherwise the events after the block. -/
def decoderBlock (r : Run) (success : Bool) (events : List Event) : Except Outcome (List Event) :=
  if r.encfile = r.decfile then .error { status := 3, events := events }
  else if success then
    match r.dec_exit with
    | some code => .error { status := code, events := events }
    | none =>
      if r.dec_process then .ok (events ++ [.decoderSaved])
      else .ok (events ++ [.decoderFailureLogged])
  else .ok events

/-- The function `main` of main.cpp. -/
def main (b : Build) (r : Run) : Outcome :=
  if r.argc ≠ 2 then { status := 1, events := [] }
  else if !r.read_ok then { status := 2, events := [] }
  else if !r.verify_ok then { status := 3, events := [] }
  else
    match (if b.ENCODER then encoderBlock r else .ok (true, [])) with
    | .error code => { status := code, events := [] }
    | .ok (success, events) =>
      match (if b.DECODER then decoderBlock r success events else .ok events) with
      | .error out => out
      | .ok events => { status := 0, events := events }

/-- The settings the encoder part of `main` checks: the raw and the encoded file
name differ, the matrix file is read, and width, height and `rle` are cast. -/
def encoderSettingsValid (r : Run) : Bool :=
  decide (r.rawfile ≠ r.encfile) && r.matrix_ok
    && r.width.isSome && r.height.isSome && r.rle.isSome

/-- The settings of a run are valid for a build: `main` gets one argument, the
settings file is read and verified, the settings of the encoder part are valid
when it is compiled in, and the encoded and the decoded file name differ when
the decoder part is compiled in. -/
def settingsValid (b : Build) (r : Run) : Bool :=
  decide (r.argc = 2) && r.read_ok && r.verify_ok
    && (!b.ENCODER || encoderSettingsValid r)
    && (!b.DECODER || decide (r.encfile ≠ r.decfile))

/-- A build with the encoder only. -/
def encoderBuild : Build := { ENCODER := true, DECODER := false }

/-- A build with the decoder only. -/
def decoderBuild : Build := { ENCODER := false, DECODER := true }

/-- A run with valid settings in which the constructors return and `process()`
of the encoder and of the decoder both return `false`. -/
def failingRun : Run :=
  { argc := 2, read_ok := true, verify_ok := true
    rawfile := "video.yuv", encfile := "video.enc", decfile := "video.dec"
    matrix_ok := true
    width := some 2, height := some 2, rle := some 1
    enc_exit := none, enc_process := false
    dec_exit := none, dec_process := false }

/-- The run `failingRun` with a quantization matrix file that cannot be read. -/
def badMatrixRun : Run := { failingRun with matrix_ok := false }

end cli

/-! Results about the video pipeline. -/
namespace dc

/-- A product below `2 ^ 31` is computed without overflow. -/
theorem mulInt_ok (a b : Nat) (h : a * b < 2 ^ 31) : mulInt a b = .ok (a * b) := by
  unfold mulInt INT_MAX1
  rw [if_pos h]

/-- The base constructor returns when the file is read and the product fits. -/
theorem VideoBase_new_ok (raw : List Nat) (width height : Nat) (h : width * height < 2 ^ 31) :
    VideoBase.new (some raw) width height =
      .ok { width := width, height := height
            frame_buffer_size := width * height
            frame_garbage_size := width * height / 2
            raw := raw, reader := BitStreamReader.new raw } := by
  unfold VideoBase.new
  rw [mulInt_ok _ _ h]
  rfl

/-- The frame size of a product below `2 ^ 31` fits a `size_t`. -/
theorem frame_size_lt (n : Nat) (h : n < 2 ^ 31) : n + n / 2 < 2 ^ 64 := by
  omega

variable {Q : Type}

/-- The object the encoding constructor returns for a width and a height of
at least 1 whose product is below `2 ^ 31`. -/
theorem encode_ok (env : Env Q) (raw : List Nat) (dest_file : String) (width height : Nat)
    (use_rle : Bool) (quant_m : Q) (gop merange : Nat)
    (hw : 1 ≤ width) (hh : 1 ≤ height) (h : width * height < 2 ^ 31) :
    VideoProcessor.encode env (some raw) dest_file width height use_rle quant_m gop merange =
      .ok { width := width, height := height
            frame_buffer_size := width * height
            frame_garbage_size := width * height / 2
            raw := raw, reader := BitStreamReader.new raw
            use_rle := use_rle, quant_m := quant_m
            gop := max 1 gop, merange := merange, motioncomp := true
            dest_file := dest_file, frames := []
            frame_count := (BitStreamReader.new raw).get_size / (width * height + width * height / 2)
            MVEC_BIT_SIZE := env.bits_needed (toInt16 merange) } := by
  have hpos : 1 ≤ width * height := Nat.mul_pos hw hh
  have hlt : width * height + width * height / 2 < 2 ^ 64 := frame_size_lt _ h
  have hmod : (width * height + width * height / 2) % SIZE_MAX1 = width * height + width * height / 2 := by
    unfold SIZE_MAX1
    exact Nat.mod_eq_of_lt hlt
  have hne : ¬ (width * height + width * height / 2 = 0) := by omega
  unfold VideoProcessor.encode
  rw [VideoBase_new_ok raw width height h]
  simp only [bind, Except.bind, hmod, hne, if_false, pure, Except.pure]


/-- The result of `get(n)` when `n` bits remain. -/
theorem get_ok (buffer : List Nat) (position n : Nat) (h : position + n ≤ 8 * buffer.length) :
    BitStreamReader.get { buffer := buffer, position := position } n =
      .ok (BitStreamReader.fieldValue buffer position n,
           { buffer := buffer, position := position + n }) := by
  unfold BitStreamReader.get BitStreamReader.get_size
  rw [if_pos h]

/-- A bit is 0 or 1. -/
theorem bitAt_le (buffer : List Nat) (i : Nat) : BitStreamReader.bitAt buffer i ≤ 1 := by
  unfold BitStreamReader.bitAt
  omega

/-- The value of an `n`-bit field is below `2 ^ n`. -/
theorem fieldValue_lt (buffer : List Nat) (pos n : Nat) :
    BitStreamReader.fieldValue buffer pos n < 2 ^ n := by
  induction n with
  | zero => simp [BitStreamReader.fieldValue]
  | succ k ih =>
    have hb := bitAt_le buffer (pos + k)
    simp only [BitStreamReader.fieldValue]
    rw [pow_succ]
    omega

/-- The object the decoding constructor returns when the Huffman step and the
matrix parser return, enough bits remain and the product of the 16-bit width
and height fits an `int`. -/
theorem decode_ok (env : Env Q) (raw : List Nat) (dest_file : String) (motioncomp : Bool)
    (hm_output : Option BitStreamReader) (rest : BitStreamReader) (quant_m : Q)
    (buffer : List Nat) (p : Nat)
    (hhm : env.huffmanDecode (BitStreamReader.new raw) = .ok (hm_output, rest))
    (hq : env.fromBitstream (afterHuffman hm_output rest) = .ok (quant_m, { buffer := buffer, position := p }))
    (hbits : p + env.RLE_BITS + 5 * env.DIM_BITS ≤ 8 * buffer.length)
    (hdim : env.DIM_BITS ≤ 32)
    (hmul : toUInt16 (BitStreamReader.fieldValue buffer (p + env.RLE_BITS) env.DIM_BITS)
          * toUInt16 (BitStreamReader.fieldValue buffer (p + env.RLE_BITS + env.DIM_BITS) env.DIM_BITS) < 2 ^ 31) :
    VideoProcessor.decode env (some raw) dest_file motioncomp =
      .ok { width := toUInt16 (BitStreamReader.fieldValue buffer (p + env.RLE_BITS) env.DIM_BITS)
            height := toUInt16 (BitStreamReader.fieldValue buffer (p + env.RLE_BITS + env.DIM_BITS) env.DIM_BITS)
            frame_buffer_size :=
              toUInt16 (BitStreamReader.fieldValue buffer (p + env.RLE_BITS) env.DIM_BITS)
              * toUInt16 (BitStreamReader.fieldValue buffer (p + env.RLE_BITS + env.DIM_BITS) env.DIM_BITS)
            frame_garbage_size :=
              toUInt16 (BitStreamReader.fieldValue buffer (p + env.RLE_BITS) env.DIM_BITS)
              * toUInt16 (BitStreamReader.fieldValue buffer (p + env.RLE_BITS + env.DIM_BITS) env.DIM_BITS) / 2
            raw := raw
            reader := { buffer := buffer, position := p + env.RLE_BITS + env.DIM_BITS + env.DIM_BITS + env.DIM_BITS + env.DIM_BITS + env.DIM_BITS }
            use_rle := decide (BitStreamReader.fieldValue buffer p env.RLE_BITS ≠ 0)
            quant_m := quant_m
            gop := toUInt16 (BitStreamReader.fieldValue buffer (p + env.RLE_BITS + env.DIM_BITS + env.DIM_BITS + env.DIM_BITS) env.DIM_BITS)
            merange := toUInt16 (BitStreamReader.fieldValue buffer (p + env.RLE_BITS + env.DIM_BITS + env.DIM_BITS + env.DIM_BITS + env.DIM_BITS) env.DIM_BITS)
            motioncomp := motioncomp
            dest_file := dest_file
            frames := []
            frame_count := BitStreamReader.fieldValue buffer (p + env.RLE_BITS + env.DIM_BITS + env.DIM_BITS) env.DIM_BITS
            MVEC_BIT_SIZE := env.bits_needed (toInt16 (toUInt16 (BitStreamReader.fieldValue buffer (p + env.RLE_BITS + env.DIM_BITS + env.DIM_BITS + env.DIM_BITS + env.DIM_BITS) env.DIM_BITS))) } := by
  have hfc : BitStreamReader.fieldValue buffer (p + env.RLE_BITS + env.DIM_BITS + env.DIM_BITS) env.DIM_BITS % SIZE_MAX1
      = BitStreamReader.fieldValue buffer (p + env.RLE_BITS + env.DIM_BITS + env.DIM_BITS) env.DIM_BITS := by
    have h1 := fieldValue_lt buffer (p + env.RLE_BITS + env.DIM_BITS + env.DIM_BITS) env.DIM_BITS
    have h2 : 2 ^ env.DIM_BITS ≤ 2 ^ 32 := Nat.pow_le_pow_right (by decide) hdim
    unfold SIZE_MAX1
    apply Nat.mod_eq_of_lt
    omega
  unfold VideoProcessor.decode
  rw [VideoBase_new_ok raw 0 0 (by decide)]
  simp only [bind, Except.bind, pure, Except.pure, hhm]
  rw [hq]
  simp only []
  rw [get_ok buffer p env.RLE_BITS (by omega)]
  simp only []
  rw [get_ok buffer _ env.DIM_BITS (by omega)]
  simp only []
  rw [get_ok buffer _ env.DIM_BITS (by omega)]
  simp only []
  rw [get_ok buffer _ env.DIM_BITS (by omega)]
  simp only []
  rw [mulInt_ok _ _ hmul]
  simp only []
  rw [get_ok buffer _ env.DIM_BITS (by omega)]
  simp only []
  rw [get_ok buffer _ env.DIM_BITS (by omega)]
  simp only [hfc]


/-- The placement rule for a `gop` of at least 1. -/
theorem is_i_frame_ok (vp : VideoProcessor Q) (f_x : Nat) (hg : 1 ≤ vp.gop) :
    VideoProcessor.is_i_frame vp f_x = .ok (f_x % vp.gop == 0) := by
  unfold VideoProcessor.is_i_frame
  rw [if_neg (by omega)]

/-- The loop of `process` in closed form: it appends the frames `loopFrame`
describes, one for each remaining iteration. -/
theorem processLoop_eq (vp : VideoProcessor Q) (source_frame_buffer total_frame_size : Nat) :
    ∀ (n f_x : Nat) (reference_frame : Option Nat) (frames : List (Frame Q)),
      n = 0 ∨ 1 ≤ vp.gop →
      VideoProcessor.processLoop vp source_frame_buffer total_frame_size n f_x reference_frame frames =
        .ok (frames ++ (List.range n).map
          (VideoProcessor.loopFrame vp source_frame_buffer total_frame_size f_x reference_frame
            frames.length)) := by
  intro n
  induction n with
  | zero =>
    intro f_x reference_frame frames _
    simp [VideoProcessor.processLoop]
  | succ k ih =>
    intro f_x reference_frame frames hg
    have hg1 : 1 ≤ vp.gop := by
      rcases hg with h | h
      · omega
      · exact h
    simp only [VideoProcessor.processLoop, is_i_frame_ok vp f_x hg1, bind, Except.bind]
    rw [ih (f_x + 1) (some frames.length) _ (Or.inr hg1)]
    have e1 : ∀ i, f_x + 1 + i = f_x + (i + 1) := fun i => by omega
    have e2 : ∀ i, (if i = 0 then some frames.length else some (frames.length + 1 + i - 1))
        = some (frames.length + (i + 1) - 1) := by
      intro i
      by_cases hi : i = 0
      · subst hi
        simp
      · rw [if_neg hi]
        congr 1
        omega
    rw [List.range_succ_eq_map, List.map_cons, List.map_map, List.append_assoc]
    simp [VideoProcessor.loopFrame, Function.comp_def, e1, e2]

/-- The result of `process` in closed form. -/
theorem process_eq (vp : VideoProcessor Q) (source_frame_buffer : Nat)
    (hg : vp.frame_count = 0 ∨ 1 ≤ vp.gop) :
    VideoProcessor.process vp source_frame_buffer =
      .ok (true, { vp with frames := (vp.frames ++ (List.range vp.frame_count).map
        (VideoProcessor.loopFrame vp source_frame_buffer
          ((vp.frame_buffer_size + vp.frame_garbage_size) % SIZE_MAX1) 0 none vp.frames.length)) }) := by
  unfold VideoProcessor.process
  simp only [bind, Except.bind, processLoop_eq vp source_frame_buffer _ vp.frame_count 0 none vp.frames hg,
    pure, Except.pure]

/-- The `f`-th appended frame is found `f` places after the frames that were
there before. -/
theorem created_frame_at (vp : VideoProcessor Q) (source_frame_buffer total_frame_size f : Nat)
    (hf : f < vp.frame_count) :
    (vp.frames ++ (List.range vp.frame_count).map
        (VideoProcessor.loopFrame vp source_frame_buffer total_frame_size 0 none vp.frames.length))[vp.frames.length + f]?
      = some (VideoProcessor.loopFrame vp source_frame_buffer total_frame_size 0 none vp.frames.length f) := by
  rw [List.getElem?_append_right (by omega)]
  simp [List.getElem?_map, List.getElem?_range, hf]


/-- C1. Header parsing of the decoding constructor. When the Huffman step
returns, `MatrixReader::fromBitstream` reads the matrix from the reader that
step leaves and stops at bit `p` of `buffer`, at least `RLE_BITS + 5 * DIM_BITS`
bits remain, `DIM_BITS` is at most 32 and the product of the 16-bit width and
height fits an `int`, the constructor returns an object whose fields were read
in the order matrix, `use_rle`, width, height, `frame_count`, `gop`, `merange`:
`use_rle` is set exactly when the `RLE_BITS`-bit field at `p` is not zero (and
is that value when the field is one bit wide), width, height, `gop` and
`merange` are the `DIM_BITS`-bit fields at `p + RLE_BITS`,
`p + RLE_BITS + DIM_BITS`, `p + RLE_BITS + 3 * DIM_BITS` and
`p + RLE_BITS + 4 * DIM_BITS` reduced to 16 bits, `frame_count` is the field at
`p + RLE_BITS + 2 * DIM_BITS`, and the reader is left
`RLE_BITS + 5 * DIM_BITS` bits after the matrix. -/
theorem decode_reads_header_in_order (env : Env Q) (raw : List Nat) (dest_file : String)
    (motioncomp : Bool) (hm_output : Option BitStreamReader) (rest : BitStreamReader)
    (quant_m : Q) (buffer : List Nat) (p : Nat)
    (hhm : env.huffmanDecode (BitStreamReader.new raw) = .ok (hm_output, rest))
    (hq : env.fromBitstream (afterHuffman hm_output rest)
      = .ok (quant_m, { buffer := buffer, position := p }))
    (hbits : p + env.RLE_BITS + 5 * env.DIM_BITS ≤ 8 * buffer.length)
    (hdim : env.DIM_BITS ≤ 32)
    (hmul : BitStreamReader.fieldValue buffer (p + env.RLE_BITS) env.DIM_BITS % 2 ^ 16
      * (BitStreamReader.fieldValue buffer (p + env.RLE_BITS + env.DIM_BITS) env.DIM_BITS % 2 ^ 16)
      < 2 ^ 31) :
    ∃ vp : VideoProcessor Q,
      VideoProcessor.decode env (some raw) dest_file motioncomp = .ok vp
      ∧ vp.quant_m = quant_m
      ∧ (vp.use_rle = true ↔ BitStreamReader.fieldValue buffer p env.RLE_BITS ≠ 0)
      ∧ (env.RLE_BITS ≤ 1 → vp.use_rle.toNat = BitStreamReader.fieldValue buffer p env.RLE_BITS)
      ∧ vp.width = BitStreamReader.fieldValue buffer (p + env.RLE_BITS) env.DIM_BITS % 2 ^ 16
      ∧ vp.height
          = BitStreamReader.fieldValue buffer (p + env.RLE_BITS + env.DIM_BITS) env.DIM_BITS % 2 ^ 16
      ∧ vp.frame_count
          = BitStreamReader.fieldValue buffer (p + env.RLE_BITS + 2 * env.DIM_BITS) env.DIM_BITS
      ∧ vp.gop
          = BitStreamReader.fieldValue buffer (p + env.RLE_BITS + 3 * env.DIM_BITS) env.DIM_BITS % 2 ^ 16
      ∧ vp.merange
          = BitStreamReader.fieldValue buffer (p + env.RLE_BITS + 4 * env.DIM_BITS) env.DIM_BITS % 2 ^ 16
      ∧ vp.reader.buffer = buffer
      ∧ vp.reader.position = p + (env.RLE_BITS + 5 * env.DIM_BITS) := by
  have e2 : p + env.RLE_BITS + 2 * env.DIM_BITS = p + env.RLE_BITS + env.DIM_BITS + env.DIM_BITS := by
    omega
  have e3 : p + env.RLE_BITS + 3 * env.DIM_BITS
      = p + env.RLE_BITS + env.DIM_BITS + env.DIM_BITS + env.DIM_BITS := by
    omega
  have e4 : p + env.RLE_BITS + 4 * env.DIM_BITS
      = p + env.RLE_BITS + env.DIM_BITS + env.DIM_BITS + env.DIM_BITS + env.DIM_BITS := by
    omega
  refine ⟨_, decode_ok env raw dest_file motioncomp hm_output rest quant_m buffer p hhm hq hbits
    hdim hmul, rfl, ?_, ?_, rfl, rfl, ?_, ?_, ?_, rfl, ?_⟩
  · simp
  · intro hr
    have hlt := fieldValue_lt buffer p env.RLE_BITS
    have hpow : 2 ^ env.RLE_BITS ≤ 2 ^ 1 := Nat.pow_le_pow_right (by decide) hr
    have hcases : BitStreamReader.fieldValue buffer p env.RLE_BITS = 0
        ∨ BitStreamReader.fieldValue buffer p env.RLE_BITS = 1 := by
      omega
    rcases hcases with h | h <;> simp [h]
  · rw [e2]
  · rw [e3]
    rfl
  · rw [e4]
    rfl
  · show p + env.RLE_BITS + env.DIM_BITS + env.DIM_BITS + env.DIM_BITS + env.DIM_BITS + env.DIM_BITS = _
    omega

/-- C1, at a concrete input: the file `sampleStream` read with `sampleEnv`. -/
theorem decode_reads_header_in_order_witness :
    ∃ vp : VideoProcessor (List Nat),
      VideoProcessor.decode sampleEnv (some sampleStream) "video.dec" true = .ok vp
      ∧ vp.quant_m = [1]
      ∧ vp.use_rle = true
      ∧ vp.width = 2 ∧ vp.height = 2 ∧ vp.frame_count = 3 ∧ vp.gop = 2 ∧ vp.merange = 1
      ∧ vp.reader.position = 85 := by
  obtain ⟨vp, h, hq, hr, _, hw, hh, hf, hg, hm, _, hp⟩ :=
    decode_reads_header_in_order sampleEnv sampleStream "video.dec" true none
      { buffer := sampleStream, position := 1 } [1] sampleStream 9
      rfl rfl (by decide) (by decide) (by decide)
  refine ⟨vp, h, hq, ?_, ?_, ?_, ?_, ?_, ?_, ?_⟩
  · exact hr.mpr (by decide)
  · rw [hw]
    decide
  · rw [hh]
    decide
  · rw [hf]
    decide
  · rw [hg]
    decide
  · rw [hm]
    decide
  · rw [hp]
    decide


/-- C2, as stated, fails: with width 0 and height 0 the divisor is zero and the
encoding constructor divides by zero, and with width 65535 and height 65535
the `int` product overflows; in neither case is there an object whose
`frame_count` is the quotient. -/
theorem encode_frame_count_counterexample :
    VideoProcessor.encode sampleEnv (some threeBytes) "video.enc" 0 0 false [1] 1 0
        = .error .divisionByZero
      ∧ VideoProcessor.encode sampleEnv (some threeBytes) "video.enc" 65535 65535 false [1] 1 0
        = .error .signedOverflow
      ∧ ¬ ∃ vp : VideoProcessor (List Nat),
          VideoProcessor.encode sampleEnv (some threeBytes) "video.enc" 0 0 false [1] 1 0 = .ok vp
          ∧ vp.frame_count
            = (BitStreamReader.new threeBytes).get_size / (0 * 0 + 0 * 0 / 2) := by
  refine ⟨rfl, rfl, ?_⟩
  rintro ⟨vp, h, _⟩
  have h0 : VideoProcessor.encode sampleEnv (some threeBytes) "video.enc" 0 0 false [1] 1 0
      = .error .divisionByZero := rfl
  rw [h0] at h
  cases h

/-- C2, amended. For every readable raw input and every width and height that
are at least 1 and whose product is below `2 ^ 31`, the encoding constructor
returns an object with `frame_buffer_size = width * height`,
`frame_garbage_size = width * height / 2` and `frame_count` equal to
`reader.get_size()` of the raw input divided, rounding down, by
`frame_buffer_size + frame_garbage_size`. -/
theorem encode_frame_count (env : Env Q) (raw : List Nat) (dest_file : String)
    (width height : Nat) (use_rle : Bool) (quant_m : Q) (gop merange : Nat)
    (hw : 1 ≤ width) (hh : 1 ≤ height) (hmul : width * height < 2 ^ 31) :
    ∃ vp : VideoProcessor Q,
      VideoProcessor.encode env (some raw) dest_file width height use_rle quant_m gop merange
        = .ok vp
      ∧ vp.reader = BitStreamReader.new raw
      ∧ vp.frame_buffer_size = width * height
      ∧ vp.frame_garbage_size = width * height / 2
      ∧ vp.frame_count
          = vp.reader.get_size / (vp.frame_buffer_size + vp.frame_garbage_size)
      ∧ vp.frame_count
          = (BitStreamReader.new raw).get_size / (width * height + width * height / 2) :=
  ⟨_, encode_ok env raw dest_file width height use_rle quant_m gop merange hw hh hmul,
    rfl, rfl, rfl, rfl, rfl⟩

/-- C2 amended, at a concrete input: twelve raw bytes, width 2 and height 2. -/
theorem encode_frame_count_witness :
    ∃ vp : VideoProcessor (List Nat),
      VideoProcessor.encode sampleEnv (some twoFrames) "video.enc" 2 2 false [1] 1 0 = .ok vp
      ∧ vp.frame_buffer_size = 4 ∧ vp.frame_garbage_size = 2
      ∧ vp.frame_count = (BitStreamReader.new twoFrames).get_size / 6 := by
  obtain ⟨vp, h, _, hb, hg, _, hf⟩ :=
    encode_frame_count sampleEnv twoFrames "video.enc" 2 2 false [1] 1 0
      (by decide) (by decide) (by decide)
  exact ⟨vp, h, hb, hg, hf⟩

/-- C10. For every readable raw input and every width and height whose product
is below `2 ^ 31`, the base constructor returns, the divisor
`frame_buffer_size + frame_garbage_size` of the frame-count computation is
positive exactly when width and height are both at least 1, and when width or
height is 0 the divisor is 0 and the encoding constructor divides by zero;
otherwise it returns. -/
theorem encode_divisor_positive_iff (env : Env Q) (raw : List Nat) (dest_file : String)
    (width height : Nat) (use_rle : Bool) (quant_m : Q) (gop merange : Nat)
    (hmul : width * height < 2 ^ 31) :
    ∃ base : VideoBase,
      VideoBase.new (some raw) width height = .ok base
      ∧ (0 < (base.frame_buffer_size + base.frame_garbage_size) % SIZE_MAX1
          ↔ 1 ≤ width ∧ 1 ≤ height)
      ∧ (0 < base.frame_buffer_size + base.frame_garbage_size ↔ 1 ≤ width ∧ 1 ≤ height)
      ∧ (width = 0 ∨ height = 0 →
          base.frame_buffer_size + base.frame_garbage_size = 0
          ∧ VideoProcessor.encode env (some raw) dest_file width height use_rle quant_m gop merange
              = .error .divisionByZero)
      ∧ (1 ≤ width ∧ 1 ≤ height →
          ∃ vp, VideoProcessor.encode env (some raw) dest_file width height use_rle quant_m gop
            merange = .ok vp) := by
  have hpos : 0 < width * height ↔ 1 ≤ width ∧ 1 ≤ height := by
    constructor
    · intro h
      exact ⟨Nat.pos_of_mul_pos_right h, Nat.pos_of_mul_pos_left h⟩
    · intro h
      exact Nat.mul_pos h.1 h.2
  have hlt : width * height + width * height / 2 < 2 ^ 64 := frame_size_lt _ hmul
  have hmod : (width * height + width * height / 2) % SIZE_MAX1
      = width * height + width * height / 2 := by
    unfold SIZE_MAX1
    exact Nat.mod_eq_of_lt hlt
  refine ⟨_, VideoBase_new_ok raw width height hmul, ?_, ?_, ?_, ?_⟩
  · show 0 < (width * height + width * height / 2) % SIZE_MAX1 ↔ _
    rw [hmod, ← hpos]
    omega
  · show 0 < width * height + width * height / 2 ↔ _
    rw [← hpos]
    omega
  · intro hz
    have hzero : width * height = 0 := by
      rcases hz with h | h <;> simp [h]
    refine ⟨?_, ?_⟩
    · show width * height + width * height / 2 = 0
      omega
    · unfold VideoProcessor.encode
      rw [VideoBase_new_ok raw width height hmul]
      simp [bind, Except.bind, hzero, throw, throwThe, MonadExceptOf.throw]
  · intro hwh
    exact ⟨_, encode_ok env raw dest_file width height use_rle quant_m gop merange hwh.1 hwh.2 hmul⟩

/-- C10, at a concrete input: three raw bytes, width 0 and height 5. -/
theorem encode_divisor_positive_iff_witness :
    ∃ base : VideoBase,
      VideoBase.new (some threeBytes) 0 5 = .ok base
      ∧ base.frame_buffer_size + base.frame_garbage_size = 0
      ∧ VideoProcessor.encode sampleEnv (some threeBytes) "video.enc" 0 5 false [1] 1 0
          = .error .divisionByZero := by
  obtain ⟨base, h, _, _, hz, _⟩ :=
    encode_divisor_positive_iff sampleEnv threeBytes "video.enc" 0 5 false [1] 1 0 (by decide)
  exact ⟨base, h, (hz (Or.inl rfl)).1, (hz (Or.inl rfl)).2⟩


/-- The encoding constructor clamps: every object it returns has `gop` at least 1. -/
theorem encode_gop_ge_one (env : Env Q) (file : Option (List Nat)) (dest_file : String)
    (width height : Nat) (use_rle : Bool) (quant_m : Q) (gop merange : Nat)
    (vp : VideoProcessor Q)
    (h : VideoProcessor.encode env file dest_file width height use_rle quant_m gop merange = .ok vp) :
    1 ≤ vp.gop ∧ vp.gop = max 1 gop := by
  unfold VideoProcessor.encode at h
  cases hb : VideoBase.new file width height with
  | error e =>
    rw [hb] at h
    cases h
  | ok base =>
    rw [hb] at h
    simp only [bind, Except.bind] at h
    split at h
    · cases h
    · simp only [pure, Except.pure, Except.ok.injEq] at h
      subst h
      exact ⟨Nat.le_max_left 1 gop, rfl⟩

/-- C3, the decoding side at a failing input: read from `zeroGopStream`, whose
`gop` field is 0, the decoding constructor returns an object with `gop = 0`
(the encoding constructor would have stored `max 1 0 = 1`), and the placement
rule `f mod gop` of that object is a remainder by zero already for frame 0. -/
theorem decode_gop_not_clamped :
    ∃ vp : VideoProcessor (List Nat),
      VideoProcessor.decode sampleEnv (some zeroGopStream) "video.dec" true = .ok vp
      ∧ vp.gop = 0
      ∧ vp.frame_count = 3
      ∧ VideoProcessor.is_i_frame vp 0 = .error .divisionByZero :=
  ⟨_, rfl, rfl, rfl, rfl⟩

/-- C5. Take a width and a height whose product is below `2 ^ 31`. The base
constructor given them (the encoding side) and the decoding constructor that
reads them from the header (under the conditions of C1 for it to return) both
finish with `frame_buffer_size = width * height` and
`frame_garbage_size = width * height / 2`, so that the frame size
`frame_buffer_size + frame_garbage_size` that `process` steps by is
`width * height + width * height / 2` on both sides; the encoding constructor
keeps the sizes of its base whenever it returns. -/
theorem frame_layout_agrees (env : Env Q) (raw_enc raw_dec : List Nat) (dest_file : String)
    (motioncomp : Bool) (hm_output : Option BitStreamReader) (rest : BitStreamReader)
    (quant_m : Q) (buffer : List Nat) (p width height : Nat)
    (hhm : env.huffmanDecode (BitStreamReader.new raw_dec) = .ok (hm_output, rest))
    (hq : env.fromBitstream (afterHuffman hm_output rest)
      = .ok (quant_m, { buffer := buffer, position := p }))
    (hbits : p + env.RLE_BITS + 5 * env.DIM_BITS ≤ 8 * buffer.length)
    (hdim : env.DIM_BITS ≤ 32)
    (hw : BitStreamReader.fieldValue buffer (p + env.RLE_BITS) env.DIM_BITS % 2 ^ 16 = width)
    (hh : BitStreamReader.fieldValue buffer (p + env.RLE_BITS + env.DIM_BITS) env.DIM_BITS % 2 ^ 16
      = height)
    (hmul : width * height < 2 ^ 31) :
    ∃ (enc : VideoBase) (dec : VideoProcessor Q),
      VideoBase.new (some raw_enc) width height = .ok enc
      ∧ VideoProcessor.decode env (some raw_dec) dest_file motioncomp = .ok dec
      ∧ dec.width = width ∧ dec.height = height
      ∧ enc.frame_buffer_size = width * height
      ∧ enc.frame_garbage_size = width * height / 2
      ∧ dec.frame_buffer_size = width * height
      ∧ dec.frame_garbage_size = width * height / 2
      ∧ (enc.frame_buffer_size + enc.frame_garbage_size) % SIZE_MAX1
          = width * height + width * height / 2
      ∧ (dec.frame_buffer_size + dec.frame_garbage_size) % SIZE_MAX1
          = width * height + width * height / 2
      ∧ ∀ (dest : String) (use_rle : Bool) (q : Q) (gop merange : Nat) (vp : VideoProcessor Q),
          VideoProcessor.encode env (some raw_enc) dest width height use_rle q gop merange = .ok vp →
          vp.toVideoBase = enc := by
  have hlt : width * height + width * height / 2 < 2 ^ 64 := frame_size_lt _ hmul
  have hmod : (width * height + width * height / 2) % SIZE_MAX1
      = width * height + width * height / 2 := by
    unfold SIZE_MAX1
    exact Nat.mod_eq_of_lt hlt
  have hmul2 : toUInt16 (BitStreamReader.fieldValue buffer (p + env.RLE_BITS) env.DIM_BITS)
      * toUInt16 (BitStreamReader.fieldValue buffer (p + env.RLE_BITS + env.DIM_BITS) env.DIM_BITS)
      < 2 ^ 31 := by
    unfold toUInt16
    rw [hw, hh]
    exact hmul
  have hd := decode_ok env raw_dec dest_file motioncomp hm_output rest quant_m buffer p hhm hq
    hbits hdim hmul2
  unfold toUInt16 at hd
  simp only [hw, hh] at hd
  refine ⟨_, _, VideoBase_new_ok raw_enc width height hmul, hd, rfl, rfl, rfl, rfl, rfl, rfl,
    hmod, hmod, ?_⟩
  intro dest use_rle q gop merange vp hvp
  unfold VideoProcessor.encode at hvp
  rw [VideoBase_new_ok raw_enc width height hmul] at hvp
  simp only [bind, Except.bind] at hvp
  split at hvp
  · cases hvp
  · simp only [pure, Except.pure, Except.ok.injEq] at hvp
    subst hvp
    rfl

/-- C5, at a concrete input: width 2 and height 2, given to the base constructor
over `twoFrames` and read by the decoding constructor from `sampleStream`. -/
theorem frame_layout_agrees_witness :
    ∃ (enc : VideoBase) (dec : VideoProcessor (List Nat)),
      VideoBase.new (some twoFrames) 2 2 = .ok enc
      ∧ VideoProcessor.decode sampleEnv (some sampleStream) "video.dec" true = .ok dec
      ∧ enc.frame_buffer_size = 4 ∧ enc.frame_garbage_size = 2
      ∧ dec.frame_buffer_size = 4 ∧ dec.frame_garbage_size = 2 := by
  obtain ⟨enc, dec, he, hd, _, _, h1, h2, h3, h4, _⟩ :=
    frame_layout_agrees sampleEnv twoFrames sampleStream "video.dec" true none
      { buffer := sampleStream, position := 1 } [1] sampleStream 9 2 2
      rfl rfl (by decide) (by decide) (by decide) (by decide) (by decide)
  exact ⟨enc, dec, he, hd, h1, h2, h3, h4⟩

/-- C6. For a `gop` of at least 1, `process` returns `true` and, for every frame
index `f` below `frame_count`, frame `f` (the `f`-th frame appended to the frame
list) is created as an I-frame exactly when `f % gop = 0`; so every frame is an
I-frame when `gop = 1`, and frame 0 is the only I-frame when
`gop >= frame_count`. -/
theorem gop_placement (vp : VideoProcessor Q) (source_frame_buffer : Nat) (hg : 1 ≤ vp.gop) :
    ∃ vp2 : VideoProcessor Q,
      VideoProcessor.process vp source_frame_buffer = .ok (true, vp2)
      ∧ (∀ f, f < vp.frame_count →
          ∃ fr, vp2.frames[vp.frames.length + f]? = some fr
            ∧ (fr.is_i_frame = true ↔ f % vp.gop = 0))
      ∧ (vp.gop = 1 → ∀ f, f < vp.frame_count →
          ∃ fr, vp2.frames[vp.frames.length + f]? = some fr ∧ fr.is_i_frame = true)
      ∧ (vp.frame_count ≤ vp.gop → ∀ f, f < vp.frame_count →
          ∃ fr, vp2.frames[vp.frames.length + f]? = some fr
            ∧ (fr.is_i_frame = true ↔ f = 0)) := by
  refine ⟨_, process_eq vp source_frame_buffer (Or.inr hg), ?_, ?_, ?_⟩
  · intro f hf
    refine ⟨_, created_frame_at vp source_frame_buffer _ f hf, ?_⟩
    simp [VideoProcessor.loopFrame]
  · intro h1 f hf
    refine ⟨_, created_frame_at vp source_frame_buffer _ f hf, ?_⟩
    simp [VideoProcessor.loopFrame, h1, Nat.mod_one]
  · intro hn f hf
    refine ⟨_, created_frame_at vp source_frame_buffer _ f hf, ?_⟩
    have hlt : f < vp.gop := by omega
    simp [VideoProcessor.loopFrame, Nat.mod_eq_of_lt hlt]

/-- C6, at a concrete input: the object the encoding constructor builds from
`twoFrames` with width 2, height 2 and `gop` 3. -/
theorem gop_placement_witness :
    ∃ vp vp2 : VideoProcessor (List Nat),
      VideoProcessor.encode sampleEnv (some twoFrames) "video.enc" 2 2 false [1] 3 0 = .ok vp
      ∧ VideoProcessor.process vp 0 = .ok (true, vp2)
      ∧ ∀ f, f < vp.frame_count →
          ∃ fr, vp2.frames[vp.frames.length + f]? = some fr
            ∧ (fr.is_i_frame = true ↔ f % vp.gop = 0) := by
  obtain ⟨vp, hvp⟩ :
      ∃ vp, VideoProcessor.encode sampleEnv (some twoFrames) "video.enc" 2 2 false [1] 3 0
        = .ok vp :=
    ⟨_, encode_ok sampleEnv twoFrames "video.enc" 2 2 false [1] 3 0
      (by decide) (by decide) (by decide)⟩
  have hg : 1 ≤ vp.gop :=
    (encode_gop_ge_one sampleEnv (some twoFrames) "video.enc" 2 2 false [1] 3 0 vp hvp).1
  obtain ⟨vp2, h2, hall, _⟩ := gop_placement vp 0 hg
  exact ⟨vp, vp2, hvp, h2, hall⟩

/-- C4, as stated, fails: with `gop = 1` frame 1 is an I-frame, and the reference
handed to its `Frame` is frame 0, not null. -/
theorem reference_passing_counterexample :
    ∃ (vp vp2 : VideoProcessor (List Nat)) (fr : Frame (List Nat)),
      VideoProcessor.encode sampleEnv (some twoFrames) "video.enc" 2 2 false [1] 1 0 = .ok vp
      ∧ VideoProcessor.process vp 0 = .ok (true, vp2)
      ∧ 1 < vp.frame_count
      ∧ vp2.frames[1]? = some fr
      ∧ fr.is_i_frame = true
      ∧ fr.reference_frame = some 0
      ∧ fr.reference_frame ≠ none :=
  ⟨_, _, _, rfl, rfl, by decide, rfl, rfl, rfl, by decide⟩

/-- C4, amended. For a `gop` of at least 1, `process` returns `true` and, for
every frame index `f` below `frame_count`, the reference handed to the `Frame`
of frame `f` is null when `f = 0` and is the frame appended just before it
(index `f - 1`) when `f >= 1`, whatever the type of frame `f`; frame 0 is an
I-frame, so every P-frame is handed the frame before it, and an I-frame is
handed null only at index 0. -/
theorem reference_passing (vp : VideoProcessor Q) (source_frame_buffer : Nat)
    (hg : 1 ≤ vp.gop) :
    ∃ vp2 : VideoProcessor Q,
      VideoProcessor.process vp source_frame_buffer = .ok (true, vp2)
      ∧ ∀ f, f < vp.frame_count →
          ∃ fr, vp2.frames[vp.frames.length + f]? = some fr
            ∧ (f = 0 → fr.reference_frame = none ∧ fr.is_i_frame = true)
            ∧ (1 ≤ f → fr.reference_frame = some (vp.frames.length + f - 1))
            ∧ (fr.is_i_frame = false → fr.reference_frame = some (vp.frames.length + f - 1)) := by
  refine ⟨_, process_eq vp source_frame_buffer (Or.inr hg), ?_⟩
  intro f hf
  refine ⟨_, created_frame_at vp source_frame_buffer _ f hf, ?_, ?_, ?_⟩
  · intro h0
    subst h0
    simp [VideoProcessor.loopFrame]
  · intro h1
    have hne : f ≠ 0 := by omega
    simp [VideoProcessor.loopFrame, hne]
  · intro hp
    have hne : f ≠ 0 := by
      intro h0
      subst h0
      simp [VideoProcessor.loopFrame] at hp
    simp [VideoProcessor.loopFrame, hne]

/-- C4 amended, at a concrete input: the object the encoding constructor builds
from `twoFrames` with width 2, height 2 and `gop` 3. -/
theorem reference_passing_witness :
    ∃ vp vp2 : VideoProcessor (List Nat),
      VideoProcessor.encode sampleEnv (some twoFrames) "video.enc" 2 2 false [1] 3 0 = .ok vp
      ∧ VideoProcessor.process vp 0 = .ok (true, vp2)
      ∧ ∀ f, f < vp.frame_count →
          ∃ fr, vp2.frames[vp.frames.length + f]? = some fr
            ∧ (f = 0 → fr.reference_frame = none ∧ fr.is_i_frame = true)
            ∧ (1 ≤ f → fr.reference_frame = some (vp.frames.length + f - 1))
            ∧ (fr.is_i_frame = false → fr.reference_frame = some (vp.frames.length + f - 1)) := by
  obtain ⟨vp, hvp⟩ :
      ∃ vp, VideoProcessor.encode sampleEnv (some twoFrames) "video.enc" 2 2 false [1] 3 0
        = .ok vp :=
    ⟨_, encode_ok sampleEnv twoFrames "video.enc" 2 2 false [1] 3 0
      (by decide) (by decide) (by decide)⟩
  have hg : 1 ≤ vp.gop :=
    (encode_gop_ge_one sampleEnv (some twoFrames) "video.enc" 2 2 false [1] 3 0 vp hvp).1
  obtain ⟨vp2, h2, hall⟩ := reference_passing vp 0 hg
  exact ⟨vp, vp2, hvp, h2, hall⟩

/-- C8, as stated, fails: the object the decoding constructor reads from
`zeroGopStream` has `frame_count = 3` and `gop = 0`, and `process` on it takes a
remainder by zero in its first iteration instead of returning `true`. -/
theorem process_postcondition_counterexample :
    ∃ vp : VideoProcessor (List Nat),
      VideoProcessor.decode sampleEnv (some zeroGopStream) "video.dec" true = .ok vp
      ∧ vp.frame_count = 3
      ∧ VideoProcessor.process vp 0 = .error .divisionByZero
      ∧ ¬ ∃ vp2, VideoProcessor.process vp 0 = .ok (true, vp2) := by
  refine ⟨_, rfl, rfl, rfl, ?_⟩
  rintro ⟨vp2, h⟩
  cases h

/-- C8, amended. For every state with frame count `n` and
`T = frame_buffer_size + frame_garbage_size` in which `gop` is at least 1 (or
`n = 0`), `process` returns `true`, appends exactly `n` frames to the frame
list and keeps the frames already there, frame `f` is built from the source
buffer at the byte offset `f * T` as `size_t` arithmetic computes it, which is
`f * T` itself whenever `n * T` is below `2 ^ 64`, and width, height, `gop`,
`merange` and `frame_count` are unchanged. -/
theorem process_postcondition (vp : VideoProcessor Q) (source_frame_buffer : Nat)
    (hg : vp.frame_count = 0 ∨ 1 ≤ vp.gop) :
    ∃ vp2 : VideoProcessor Q,
      VideoProcessor.process vp source_frame_buffer = .ok (true, vp2)
      ∧ vp2.frames.length = vp.frames.length + vp.frame_count
      ∧ vp2.frames.take vp.frames.length = vp.frames
      ∧ (∀ f, f < vp.frame_count →
          ∃ fr, vp2.frames[vp.frames.length + f]? = some fr
            ∧ fr.frame_starts
                = source_frame_buffer
                  + (f * ((vp.frame_buffer_size + vp.frame_garbage_size) % 2 ^ 64)) % 2 ^ 64
            ∧ (vp.frame_count * (vp.frame_buffer_size + vp.frame_garbage_size) < 2 ^ 64 →
                fr.frame_starts
                  = source_frame_buffer + f * (vp.frame_buffer_size + vp.frame_garbage_size)))
      ∧ vp2.width = vp.width ∧ vp2.height = vp.height
      ∧ vp2.gop = vp.gop ∧ vp2.merange = vp.merange
      ∧ vp2.frame_count = vp.frame_count := by
  refine ⟨_, process_eq vp source_frame_buffer hg, ?_, ?_, ?_, rfl, rfl, rfl, rfl, rfl⟩
  · simp
  · simp
  · intro f hf
    refine ⟨_, created_frame_at vp source_frame_buffer _ f hf, ?_, ?_⟩
    · simp only [VideoProcessor.loopFrame, Nat.zero_add, SIZE_MAX1]
    · intro hsz
      have hle : (f + 1) * (vp.frame_buffer_size + vp.frame_garbage_size)
          ≤ vp.frame_count * (vp.frame_buffer_size + vp.frame_garbage_size) :=
        Nat.mul_le_mul_right _ hf
      have hexp : (f + 1) * (vp.frame_buffer_size + vp.frame_garbage_size)
          = f * (vp.frame_buffer_size + vp.frame_garbage_size)
            + (vp.frame_buffer_size + vp.frame_garbage_size) := Nat.succ_mul _ _
      have hT : (vp.frame_buffer_size + vp.frame_garbage_size) % SIZE_MAX1
          = vp.frame_buffer_size + vp.frame_garbage_size := by
        unfold SIZE_MAX1
        apply Nat.mod_eq_of_lt
        omega
      have hfT : (f * (vp.frame_buffer_size + vp.frame_garbage_size)) % SIZE_MAX1
          = f * (vp.frame_buffer_size + vp.frame_garbage_size) := by
        unfold SIZE_MAX1
        apply Nat.mod_eq_of_lt
        omega
      simp only [VideoProcessor.loopFrame, Nat.zero_add, hT, hfT]

/-- C8 amended, at a concrete input: the object the decoding constructor reads
from `sampleStream` (three frames of 6 bytes, `gop` 2). -/
theorem process_postcondition_witness :
    ∃ vp vp2 : VideoProcessor (List Nat),
      VideoProcessor.decode sampleEnv (some sampleStream) "video.dec" true = .ok vp
      ∧ VideoProcessor.process vp 0 = .ok (true, vp2)
      ∧ vp2.frames.length = 3
      ∧ (∀ f, f < 3 → ∃ fr, vp2.frames[f]? = some fr ∧ fr.frame_starts = f * 6)
      ∧ vp2.width = vp.width ∧ vp2.height = vp.height
      ∧ vp2.gop = vp.gop ∧ vp2.merange = vp.merange
      ∧ vp2.frame_count = vp.frame_count := by
  obtain ⟨vp, hvp, hgop, hfc, hfb, hfg, hfr⟩ :
      ∃ vp : VideoProcessor (List Nat),
        VideoProcessor.decode sampleEnv (some sampleStream) "video.dec" true = .ok vp
        ∧ vp.gop = 2 ∧ vp.frame_count = 3
        ∧ vp.frame_buffer_size = 4 ∧ vp.frame_garbage_size = 2 ∧ vp.frames = [] :=
    ⟨_, rfl, rfl, rfl, rfl, rfl, rfl⟩
  obtain ⟨vp2, h2, hlen, _, hall, hw, hh, hg, hme, hcount⟩ :=
    process_postcondition vp 0 (Or.inr (by rw [hgop]; decide))
  rw [hfr, hfc] at hlen
  rw [hfr, hfc, hfb, hfg] at hall
  refine ⟨vp, vp2, hvp, h2, hlen, ?_, hw, hh, hg, hme, hcount⟩
  intro f hf
  obtain ⟨fr, h3, _, h4⟩ := hall f hf
  refine ⟨fr, ?_, ?_⟩
  · simpa using h3
  · simpa using h4 (by decide)

end dc

/-! Results about the command line. -/

namespace cli

/-- The outcome of `main` on valid settings when the constructors of `enc` and
`dec` return: the status is 0 whatever `process()` returns, a failed
`process()` is logged and its `saveResult()` is not called, and the decoder
does not run after a failed encoder. -/
theorem main_of_valid (b : Build) (r : Run) (hv : settingsValid b r = true)
    (he : r.enc_exit = none) (hd : r.dec_exit = none) :
    main b r =
      { status := 0
        events :=
          (if b.ENCODER then
            (if r.enc_process then [Event.encoderSaved] else [Event.encoderFailureLogged])
           else [])
          ++ (if b.DECODER && (!b.ENCODER || r.enc_process) then
                (if r.dec_process then [Event.decoderSaved] else [Event.decoderFailureLogged])
              else []) } := by
  obtain ⟨enc, dec⟩ := b
  obtain ⟨argc, rd, vf, raw, encf, decf, mok, w, h, rle, ee, ep, de, dp⟩ := r
  simp only at he hd
  subst he hd
  simp only [settingsValid, encoderSettingsValid, Bool.and_eq_true, decide_eq_true_eq,
    Bool.or_eq_true, Bool.not_eq_true', Option.isSome_iff_exists] at hv
  obtain ⟨⟨⟨⟨ha, hr⟩, hvf⟩, hse⟩, hsd⟩ := hv
  subst ha hr hvf
  cases enc
  · cases dec
    · simp [main]
    · have hne : ¬ encf = decf := by simpa using hsd
      cases dp <;> simp [main, decoderBlock, hne]
  · have hse2 := hse.resolve_left (by decide)
    obtain ⟨⟨⟨⟨hraw, hmok⟩, ⟨w1, hw⟩⟩, ⟨h1, hh⟩⟩, ⟨rle1, hrle⟩⟩ := hse2
    subst hmok hw hh hrle
    cases dec
    · cases ep <;> simp [main, encoderBlock, hraw]
    · have hne : ¬ encf = decf := by simpa using hsd
      cases ep <;> cases dp <;> simp [main, encoderBlock, decoderBlock, hraw, hne]

/-- C7, at a failing input: the run `failingRun` has valid settings, its
constructors return and `process()` returns `false`. In an encoder build
`main` logs the failure and returns exit status 0, and so it does in a decoder
build; the claim asks for a non-zero status. The error paths before the
processing do return one: with an unreadable matrix file the status is 4. -/
theorem main_returns_zero_on_process_failure :
    settingsValid encoderBuild failingRun = true
      ∧ failingRun.enc_exit = none
      ∧ failingRun.enc_process = false
      ∧ main encoderBuild failingRun = { status := 0, events := [Event.encoderFailureLogged] }
      ∧ settingsValid decoderBuild failingRun = true
      ∧ failingRun.dec_exit = none
      ∧ failingRun.dec_process = false
      ∧ main decoderBuild failingRun = { status := 0, events := [Event.decoderFailureLogged] }
      ∧ (main encoderBuild badMatrixRun).status = 4 := by
  decide

end cli
